import Mathlib

set_option maxHeartbeats 1000000

/-!
Verification development for the edge-s repository (SvelteKit per-request
state management).  The definitions below are a shallow embedding of the
main variant of the source files:

* `src/lib/store/State.svelte.ts` — `safeReplacer`, `stateSerialize`,
  `getRequestContext`, `getBrowserState`, `createRawState`, `createState`,
  `createDerivedState`;
* `src/lib/server/EdgesHandle.ts` — `edgesHandle` and its JSON response
  augmentation;
* `src/lib/provider/Provider.ts` — `createUiProvider` memoization;
* `src/lib/client/NavigationSync.svelte.ts` — `safeReviver`.

JavaScript values are modelled by the inductive `JSVal`: `vundef` is the
JS value `undefined`, `vnull` is `null`; numbers are modelled as integers
(the values moved through the state protocol in this development), objects
as insertion-ordered association lists (matching JS object property order),
and JS `Map`s as association lists as well.
-/

/-- JavaScript values, as used by the state store and the serializer. -/
inductive JSVal where
  | vundef : JSVal
  | vnull : JSVal
  | vbool : Bool → JSVal
  | vnum : Int → JSVal
  | vstr : String → JSVal
  | varr : List JSVal → JSVal
  | vobj : List (String × JSVal) → JSVal

/-- The JS test `v === undefined` (used where the source checks a value
against `undefined`). -/
def isUndef : JSVal → Bool
  | .vundef => true
  | _ => false

/-- `Map.prototype.get` / JS object property lookup over an ordered
association list (first matching key wins, as JS keys are unique). -/
def mapGet {κ α : Type} [DecidableEq κ] : List (κ × α) → κ → Option α
  | [], _ => none
  | (k, v) :: rest, key => if k = key then some v else mapGet rest key

/-- `Map.prototype.has` / the JS `in` operator over an association list. -/
def mapHas {κ α : Type} [DecidableEq κ] (m : List (κ × α)) (key : κ) : Bool :=
  (mapGet m key).isSome

/-- `Map.prototype.set` / JS property write: replaces the value in place
when the key is present (keeping its position), appends otherwise. -/
def mapSet {κ α : Type} [DecidableEq κ] : List (κ × α) → κ → α → List (κ × α)
  | [], key, v => [(key, v)]
  | (k, w) :: rest, key, v =>
      if k = key then (k, v) :: rest else (k, w) :: mapSet rest key v

theorem mapGet_mapSet {κ α : Type} [DecidableEq κ]
    (m : List (κ × α)) (k k' : κ) (v : α) :
    mapGet (mapSet m k v) k' = if k = k' then some v else mapGet m k' := by
  induction m with
  | nil => by_cases h : k = k' <;> simp [mapSet, mapGet, h]
  | cons hd tl ih =>
      obtain ⟨k0, v0⟩ := hd
      simp only [mapSet]
      by_cases h0 : k0 = k
      · subst h0
        simp only [if_pos rfl, mapGet]
        by_cases h1 : k0 = k' <;> simp [h1]
      · simp only [if_neg h0, mapGet]
        by_cases h1 : k0 = k'
        · subst h1
          have hne : ¬ k = k0 := fun hh => h0 hh.symm
          simp [hne]
        · simp [h1, ih]

theorem mapGet_mapSet_same {κ α : Type} [DecidableEq κ]
    (m : List (κ × α)) (k : κ) (v : α) :
    mapGet (mapSet m k v) k = some v := by
  simp [mapGet_mapSet]

theorem mapGet_mapSet_other {κ α : Type} [DecidableEq κ]
    (m : List (κ × α)) (k k' : κ) (v : α) (h : k ≠ k') :
    mapGet (mapSet m k v) k' = mapGet m k' := by
  simp [mapGet_mapSet, h]

/-- `UNDEFINED_MARKER` from `State.svelte.ts` / `NavigationSync.svelte.ts`. -/
def UNDEFINED_MARKER : String := "__EDGES_UNDEFINED__"

/-- `NULL_MARKER` from `State.svelte.ts` / `NavigationSync.svelte.ts`. -/
def NULL_MARKER : String := "__EDGES_NULL__"

/-- `safeReplacer` from `State.svelte.ts` (and `EdgesHandle.ts`): wraps
`undefined` and `null` into sentinel objects; other values pass through.
(The function/symbol branch returns `undefined`; functions and symbols are
outside the `JSVal` domain.) -/
def safeReplacer : JSVal → JSVal
  | .vundef => .vobj [(UNDEFINED_MARKER, .vbool true)]
  | .vnull => .vobj [(NULL_MARKER, .vbool true)]
  | v => v

mutual

/-- The value denoted by `JSON.stringify(v, safeReplacer)`: the replacer is
applied to every value top-down (`safeReplacer` wraps each `undefined`/`null`
into its sentinel object) and serialization recurses into arrays and
objects.  The JSON text layer is a bijection on these trees, so the
composition is modelled at tree level. -/
def jsonEncode : JSVal → JSVal
  | .vundef => .vobj [(UNDEFINED_MARKER, .vbool true)]
  | .vnull => .vobj [(NULL_MARKER, .vbool true)]
  | .vbool b => .vbool b
  | .vnum n => .vnum n
  | .vstr s => .vstr s
  | .varr xs => .varr (jsonEncodeArr xs)
  | .vobj fs => .vobj (jsonEncodeObj fs)

/-- Element-wise encoding of a JS array. -/
def jsonEncodeArr : List JSVal → List JSVal
  | [] => []
  | x :: rest => jsonEncode x :: jsonEncodeArr rest

/-- Field-wise encoding of a JS object. -/
def jsonEncodeObj : List (String × JSVal) → List (String × JSVal)
  | [] => []
  | (k, v) :: rest => (k, jsonEncode v) :: jsonEncodeObj rest

end

theorem jsonEncode_undef_step : jsonEncode .vundef = safeReplacer .vundef := by
  simp [jsonEncode, safeReplacer]

theorem jsonEncode_null_step : jsonEncode .vnull = safeReplacer .vnull := by
  simp [jsonEncode, safeReplacer]

/-- `safeReviver` from `NavigationSync.svelte.ts` (single step): a truthy
object carrying `UNDEFINED_MARKER` becomes `undefined`, one carrying
`NULL_MARKER` becomes `null`; anything else passes through (arrays never
carry the marker keys, `null` and primitives fail the truthy-object guard). -/
def safeReviver : JSVal → JSVal
  | .vobj fs =>
      if mapHas fs UNDEFINED_MARKER then .vundef
      else if mapHas fs NULL_MARKER then .vnull
      else .vobj fs
  | v => v

mutual

/-- The value denoted by `JSON.parse(text, safeReviver)` applied to the text
of an encoded tree, modelled at tree level.  Per ECMA-262
InternalizeJSONProperty the reviver runs bottom-up, and a property whose
revived value is `undefined` is DELETED from its holder; for an array index
this leaves a hole, which reads as `undefined` and is modelled here by
keeping `vundef` at that position. -/
def jsonDecode : JSVal → JSVal
  | .vobj fs => safeReviver (.vobj (jsonDecodeObj fs))
  | .varr xs => safeReviver (.varr (jsonDecodeArr xs))
  | v => safeReviver v

/-- Element-wise decoding of a JS array (a deleted element is a hole that
reads as `undefined`). -/
def jsonDecodeArr : List JSVal → List JSVal
  | [] => []
  | x :: rest => jsonDecode x :: jsonDecodeArr rest

/-- Field-wise decoding of a JS object: a field whose revived value is
`undefined` is deleted by `JSON.parse`. -/
def jsonDecodeObj : List (String × JSVal) → List (String × JSVal)
  | [] => []
  | (k, v) :: rest =>
      if isUndef (jsonDecode v) then jsonDecodeObj rest
      else (k, jsonDecode v) :: jsonDecodeObj rest

end

mutual

/-- Values on which the sentinel round-trip is lossless: no object field
holds the value `undefined` (such a field is deleted on decode) and no
object uses one of the two sentinel marker keys as an application key. -/
def goodVal : JSVal → Bool
  | .vundef => true
  | .vnull => true
  | .vbool _ => true
  | .vnum _ => true
  | .vstr _ => true
  | .varr xs => goodArr xs
  | .vobj fs => goodObj fs

/-- `goodVal` for every array element. -/
def goodArr : List JSVal → Bool
  | [] => true
  | x :: rest => goodVal x && goodArr rest

/-- `goodVal` for every object field, plus: no marker key, no field whose
value is `undefined`. -/
def goodObj : List (String × JSVal) → Bool
  | [] => true
  | (k, v) :: rest =>
      decide (k ≠ UNDEFINED_MARKER) && decide (k ≠ NULL_MARKER) &&
      !(isUndef v) && goodVal v && goodObj rest

end

theorem goodObj_parts {k : String} {v : JSVal} {rest : List (String × JSVal)}
    (h : goodObj ((k, v) :: rest) = true) :
    k ≠ UNDEFINED_MARKER ∧ k ≠ NULL_MARKER ∧ isUndef v = false ∧
    goodVal v = true ∧ goodObj rest = true := by
  simp only [goodObj, Bool.and_eq_true, decide_eq_true_eq,
    Bool.not_eq_true'] at h
  exact ⟨h.1.1.1.1, h.1.1.1.2, h.1.1.2, h.1.2, h.2⟩

theorem goodObj_no_undef_marker (fs : List (String × JSVal))
    (h : goodObj fs = true) : mapHas fs UNDEFINED_MARKER = false := by
  induction fs with
  | nil => simp [mapHas, mapGet]
  | cons hd tl ih =>
      obtain ⟨k, v⟩ := hd
      obtain ⟨h1, _, _, _, h5⟩ := goodObj_parts h
      simp only [mapHas, mapGet, if_neg h1]
      simpa [mapHas] using ih h5

theorem goodObj_no_null_marker (fs : List (String × JSVal))
    (h : goodObj fs = true) : mapHas fs NULL_MARKER = false := by
  induction fs with
  | nil => simp [mapHas, mapGet]
  | cons hd tl ih =>
      obtain ⟨k, v⟩ := hd
      obtain ⟨_, h2, _, _, h5⟩ := goodObj_parts h
      simp only [mapHas, mapGet, if_neg h2]
      simpa [mapHas] using ih h5

mutual

theorem roundtrip_val : (v : JSVal) → goodVal v = true →
    jsonDecode (jsonEncode v) = v
  | .vundef, _ => by
      simp [jsonEncode, jsonDecode, jsonDecodeObj, safeReviver, mapHas,
        mapGet, isUndef, UNDEFINED_MARKER]
  | .vnull, _ => by
      simp [jsonEncode, jsonDecode, jsonDecodeObj, safeReviver, mapHas,
        mapGet, isUndef, UNDEFINED_MARKER, NULL_MARKER]
  | .vbool _, _ => by simp [jsonEncode, jsonDecode, safeReviver]
  | .vnum _, _ => by simp [jsonEncode, jsonDecode, safeReviver]
  | .vstr _, _ => by simp [jsonEncode, jsonDecode, safeReviver]
  | .varr xs, h => by
      have h' : goodArr xs = true := by simpa [goodVal] using h
      simp [jsonEncode, jsonDecode, roundtrip_arr xs h', safeReviver]
  | .vobj fs, h => by
      have h' : goodObj fs = true := by simpa [goodVal] using h
      simp [jsonEncode, jsonDecode, roundtrip_obj fs h', safeReviver,
        goodObj_no_undef_marker fs h', goodObj_no_null_marker fs h']

theorem roundtrip_arr : (xs : List JSVal) → goodArr xs = true →
    jsonDecodeArr (jsonEncodeArr xs) = xs
  | [], _ => by simp [jsonEncodeArr, jsonDecodeArr]
  | x :: rest, h => by
      simp only [goodArr, Bool.and_eq_true] at h
      simp [jsonEncodeArr, jsonDecodeArr, roundtrip_val x h.1,
        roundtrip_arr rest h.2]

theorem roundtrip_obj : (fs : List (String × JSVal)) → goodObj fs = true →
    jsonDecodeObj (jsonEncodeObj fs) = fs
  | [], _ => by simp [jsonEncodeObj, jsonDecodeObj]
  | (k, v) :: rest, h => by
      obtain ⟨_, _, h3, h4, h5⟩ := goodObj_parts h
      have hv := roundtrip_val v h4
      simp [jsonEncodeObj, jsonDecodeObj, hv, h3, roundtrip_obj rest h5]

end

/-- The value from the spec scenario: `{id: 2, settings: {theme: undefined}}`. -/
def specScenarioValue : JSVal :=
  .vobj [("id", .vnum 2), ("settings", .vobj [("theme", .vundef)])]

/-- C2 (counterexample): decoding the sentinel-encoded form of
`{id: 2, settings: {theme: undefined}}` yields `{id: 2, settings: {}}` —
the reviver returns `undefined` for the sentinel object, so `JSON.parse`
deletes the `theme` property instead of keeping it as an
actually-undefined property.  The round-trip claim fails at this input. -/
theorem c2_roundtrip_counterexample :
    jsonDecode (jsonEncode specScenarioValue) =
      .vobj [("id", .vnum 2), ("settings", .vobj [])] ∧
    jsonDecode (jsonEncode specScenarioValue) ≠ specScenarioValue := by
  constructor
  · simp [specScenarioValue, jsonEncode, jsonEncodeObj, jsonDecode,
      jsonDecodeObj, safeReviver, mapHas, mapGet, isUndef,
      UNDEFINED_MARKER, NULL_MARKER]
  · simp [specScenarioValue, jsonEncode, jsonEncodeObj, jsonDecode,
      jsonDecodeObj, safeReviver, mapHas, mapGet, isUndef,
      UNDEFINED_MARKER, NULL_MARKER]

/-- JS `string.length` (UTF-16 code units): astral codepoints count twice. -/
def utf16Length (s : String) : Nat :=
  s.data.foldl (fun acc c => acc + (if c.toNat ≥ 0x10000 then 2 else 1)) 0

/-- UTF-8 encoding of one codepoint (the `TextEncoder` used by
`stateSerialize`). -/
def utf8EncodeCp (c : Nat) : List Nat :=
  if c < 0x80 then [c]
  else if c < 0x800 then [0xC0 + c / 64, 0x80 + c % 64]
  else if c < 0x10000 then
    [0xE0 + c / 4096, 0x80 + c / 64 % 64, 0x80 + c % 64]
  else
    [0xF0 + c / 262144, 0x80 + c / 4096 % 64, 0x80 + c / 64 % 64, 0x80 + c % 64]

/-- UTF-8 encoding of a codepoint sequence (`TextEncoder.encode`). -/
def utf8EncodeList : List Nat → List Nat
  | [] => []
  | c :: rest => utf8EncodeCp c ++ utf8EncodeList rest

/- UTF-8 decoding back to codepoints (the `TextDecoder` used by the
emitted decode-and-parse snippet), split into helpers per sequence length
so each continuation byte is pattern-matched at top level. -/
mutual

/-- UTF-8 decode of a byte list to codepoints (`TextDecoder.decode`). -/
def utf8DecodeList : List Nat → Option (List Nat)
  | [] => some []
  | b :: rest =>
    if b < 0x80 then (utf8DecodeList rest).map (fun cs => b :: cs)
    else if b < 0xC0 then none
    else if b < 0xE0 then utf8Decode2 b rest
    else if b < 0xF0 then utf8Decode3 b rest
    else utf8Decode4 b rest

/-- Continuation of a two-byte UTF-8 sequence. -/
def utf8Decode2 (b : Nat) : List Nat → Option (List Nat)
  | b2 :: rest2 =>
      if 0x80 ≤ b2 ∧ b2 < 0xC0 then
        (utf8DecodeList rest2).map
          (fun cs => ((b - 0xC0) * 64 + (b2 - 0x80)) :: cs)
      else none
  | [] => none

/-- Continuation of a three-byte UTF-8 sequence. -/
def utf8Decode3 (b : Nat) : List Nat → Option (List Nat)
  | b2 :: b3 :: rest2 =>
      if (0x80 ≤ b2 ∧ b2 < 0xC0) ∧ (0x80 ≤ b3 ∧ b3 < 0xC0) then
        (utf8DecodeList rest2).map
          (fun cs =>
            ((b - 0xE0) * 4096 + (b2 - 0x80) * 64 + (b3 - 0x80)) :: cs)
      else none
  | _ => none

/-- Continuation of a four-byte UTF-8 sequence. -/
def utf8Decode4 (b : Nat) : List Nat → Option (List Nat)
  | b2 :: b3 :: b4 :: rest2 =>
      if (0x80 ≤ b2 ∧ b2 < 0xC0) ∧ (0x80 ≤ b3 ∧ b3 < 0xC0) ∧
          (0x80 ≤ b4 ∧ b4 < 0xC0) then
        (utf8DecodeList rest2).map
          (fun cs =>
            ((b - 0xF0) * 262144 + (b2 - 0x80) * 4096 +
              (b3 - 0x80) * 64 + (b4 - 0x80)) :: cs)
      else none
  | _ => none

end

theorem utf8DecodeList_encodeCp (c : Nat) (hc : c < 0x110000) (bs : List Nat) :
    utf8DecodeList (utf8EncodeCp c ++ bs) =
      (utf8DecodeList bs).map (fun cs => c :: cs) := by
  unfold utf8EncodeCp
  by_cases h1 : c < 0x80
  · rw [if_pos h1]
    rw [List.cons_append, List.nil_append, utf8DecodeList, if_pos h1]
  · by_cases h2 : c < 0x800
    · have hA : ¬ (0xC0 + c / 64 < 0x80) := by omega
      have hB : ¬ (0xC0 + c / 64 < 0xC0) := by omega
      have hC : 0xC0 + c / 64 < 0xE0 := by omega
      have hD : 0x80 ≤ 0x80 + c % 64 ∧ 0x80 + c % 64 < 0xC0 := by omega
      have hE : (0xC0 + c / 64 - 0xC0) * 64 + (0x80 + c % 64 - 0x80) = c := by
        omega
      rw [if_neg h1, if_pos h2]
      simp only [List.cons_append, List.nil_append]
      rw [utf8DecodeList, if_neg hA, if_neg hB, if_pos hC, utf8Decode2,
        if_pos hD, hE]
    · by_cases h3 : c < 0x10000
      · have hA : ¬ (0xE0 + c / 4096 < 0x80) := by omega
        have hB : ¬ (0xE0 + c / 4096 < 0xC0) := by omega
        have hC : ¬ (0xE0 + c / 4096 < 0xE0) := by omega
        have hC2 : 0xE0 + c / 4096 < 0xF0 := by omega
        have hD : (0x80 ≤ 0x80 + c / 64 % 64 ∧ 0x80 + c / 64 % 64 < 0xC0) ∧
            (0x80 ≤ 0x80 + c % 64 ∧ 0x80 + c % 64 < 0xC0) := by omega
        have hE : (0xE0 + c / 4096 - 0xE0) * 4096 +
            (0x80 + c / 64 % 64 - 0x80) * 64 + (0x80 + c % 64 - 0x80) = c := by
          omega
        rw [if_neg h1, if_neg h2, if_pos h3]
        simp only [List.cons_append, List.nil_append]
        rw [utf8DecodeList, if_neg hA, if_neg hB, if_neg hC, if_pos hC2,
          utf8Decode3, if_pos hD, hE]
      · have hA : ¬ (0xF0 + c / 262144 < 0x80) := by omega
        have hB : ¬ (0xF0 + c / 262144 < 0xC0) := by omega
        have hC : ¬ (0xF0 + c / 262144 < 0xE0) := by omega
        have hC2 : ¬ (0xF0 + c / 262144 < 0xF0) := by omega
        have hD : (0x80 ≤ 0x80 + c / 4096 % 64 ∧ 0x80 + c / 4096 % 64 < 0xC0) ∧
            (0x80 ≤ 0x80 + c / 64 % 64 ∧ 0x80 + c / 64 % 64 < 0xC0) ∧
            (0x80 ≤ 0x80 + c % 64 ∧ 0x80 + c % 64 < 0xC0) := by omega
        have hE : (0xF0 + c / 262144 - 0xF0) * 262144 +
            (0x80 + c / 4096 % 64 - 0x80) * 4096 +
            (0x80 + c / 64 % 64 - 0x80) * 64 + (0x80 + c % 64 - 0x80) = c := by
          omega
        rw [if_neg h1, if_neg h2, if_neg h3]
        simp only [List.cons_append, List.nil_append]
        rw [utf8DecodeList, if_neg hA, if_neg hB, if_neg hC, if_neg hC2,
          utf8Decode4, if_pos hD, hE]

theorem utf8_roundtrip (cs : List Nat) (h : ∀ c ∈ cs, c < 0x110000) :
    utf8DecodeList (utf8EncodeList cs) = some cs := by
  induction cs with
  | nil => simp [utf8EncodeList, utf8DecodeList]
  | cons c rest ih =>
      have hc : c < 0x110000 := h c (by simp)
      have hrest := ih (fun x hx => h x (by simp [hx]))
      simp [utf8EncodeList, utf8DecodeList_encodeCp c hc, hrest]

theorem utf8EncodeCp_bytes_lt (c : Nat) (hc : c < 0x110000) :
    ∀ b ∈ utf8EncodeCp c, b < 256 := by
  unfold utf8EncodeCp
  split_ifs <;> intro b hb <;> simp at hb <;> omega

theorem utf8EncodeList_bytes_lt (cs : List Nat) (h : ∀ c ∈ cs, c < 0x110000) :
    ∀ b ∈ utf8EncodeList cs, b < 256 := by
  induction cs with
  | nil => simp [utf8EncodeList]
  | cons c rest ih =>
      intro b hb
      simp only [utf8EncodeList, List.mem_append] at hb
      rcases hb with hb | hb
      · exact utf8EncodeCp_bytes_lt c (h c (by simp)) b hb
      · exact ih (fun x hx => h x (by simp [hx])) b hb

/-- The base64 alphabet, in index order. -/
def b64Chars : List Char :=
  "ABCDEFGHIJKLMNOPQRSTUVWXYZabcdefghijklmnopqrstuvwxyz0123456789+/".data

/-- Character for a sextet value (used by `btoa`). -/
def sextetChar (n : Nat) : Char := b64Chars.getD n 'A'

/-- Sextet value of an alphabet character (used by `atob`). -/
def charSextet (c : Char) : Nat := b64Chars.indexOf c

theorem charSextet_sextetChar : ∀ n, n < 64 → charSextet (sextetChar n) = n := by
  decide

theorem sextetChar_ne_pad : ∀ n, n < 64 → sextetChar n ≠ '=' := by
  decide

/-- `btoa` over a byte sequence (the "binary string" built by
`stateSerialize` holds one byte per character). -/
def b64EncodeBytes : List Nat → List Char
  | [] => []
  | [a] => [sextetChar (a / 4), sextetChar (a % 4 * 16), '=', '=']
  | [a, b] =>
      [sextetChar (a / 4), sextetChar (a % 4 * 16 + b / 16),
       sextetChar (b % 16 * 4), '=']
  | a :: b :: c :: rest =>
      sextetChar (a / 4) :: sextetChar (a % 4 * 16 + b / 16) ::
      sextetChar (b % 16 * 4 + c / 64) :: sextetChar (c % 64) ::
      b64EncodeBytes rest

/-- `atob`, producing the byte sequence again. -/
def b64DecodeChars : List Char → Option (List Nat)
  | [] => some []
  | w :: x :: y :: z :: rest =>
      if y = '=' then
        if z = '=' ∧ rest = [] then
          some [charSextet w * 4 + charSextet x / 16]
        else none
      else if z = '=' then
        if rest = [] then
          some [charSextet w * 4 + charSextet x / 16,
                charSextet x % 16 * 16 + charSextet y / 4]
        else none
      else
        (b64DecodeChars rest).map (fun bs =>
          (charSextet w * 4 + charSextet x / 16) ::
          (charSextet x % 16 * 16 + charSextet y / 4) ::
          (charSextet y % 4 * 64 + charSextet z) :: bs)
  | _ => none

theorem b64_roundtrip : (bs : List Nat) → (∀ b ∈ bs, b < 256) →
    b64DecodeChars (b64EncodeBytes bs) = some bs
  | [], _ => by simp [b64EncodeBytes, b64DecodeChars]
  | [a], h => by
      have ha : a < 256 := h a (by simp)
      rw [b64EncodeBytes, b64DecodeChars, if_pos rfl,
        if_pos ⟨rfl, rfl⟩]
      rw [charSextet_sextetChar _ (by omega), charSextet_sextetChar _ (by omega)]
      simp only [Option.some.injEq, List.cons.injEq, and_true]
      omega
  | [a, b], h => by
      have ha : a < 256 := h a (by simp)
      have hb : b < 256 := h b (by simp)
      rw [b64EncodeBytes, b64DecodeChars,
        if_neg (sextetChar_ne_pad _ (by omega)), if_pos rfl, if_pos rfl]
      rw [charSextet_sextetChar _ (by omega), charSextet_sextetChar _ (by omega),
        charSextet_sextetChar _ (by omega)]
      simp only [Option.some.injEq, List.cons.injEq, and_true]
      omega
  | a :: b :: c :: d :: rest, h => by
      have ha : a < 256 := h a (by simp)
      have hb : b < 256 := h b (by simp)
      have hc : c < 256 := h c (by simp)
      have ih := b64_roundtrip (d :: rest) (fun x hx => h x (by simp at hx; simp [hx]))
      rw [b64EncodeBytes, b64DecodeChars,
        if_neg (sextetChar_ne_pad _ (by omega)),
        if_neg (sextetChar_ne_pad _ (by omega)), ih]
      rw [charSextet_sextetChar _ (by omega), charSextet_sextetChar _ (by omega),
        charSextet_sextetChar _ (by omega), charSextet_sextetChar _ (by omega)]
      simp only [Option.map_some', Option.some.injEq, List.cons.injEq, and_true]
      omega
  | [a, b, c], h => by
      have ha : a < 256 := h a (by simp)
      have hb : b < 256 := h b (by simp)
      have hc : c < 256 := h c (by simp)
      rw [b64EncodeBytes, b64DecodeChars,
        if_neg (sextetChar_ne_pad _ (by omega)),
        if_neg (sextetChar_ne_pad _ (by omega))]
      rw [b64EncodeBytes, b64DecodeChars]
      rw [charSextet_sextetChar _ (by omega), charSextet_sextetChar _ (by omega),
        charSextet_sextetChar _ (by omega), charSextet_sextetChar _ (by omega)]
      simp only [Option.map_some', Option.some.injEq, List.cons.injEq, and_true]
      omega

theorem char_toNat_lt (c : Char) : c.toNat < 0x110000 := by
  rcases c.valid with h | h
  · exact Nat.lt_trans h (by norm_num)
  · exact h.2

theorem stringMk_data (s : String) : String.mk s.data = s := by
  obtain ⟨d⟩ := s
  rfl

/-- Codepoints of a string (JS strings are read per character here; Lean
chars are whole codepoints, surrogate pairs do not arise). -/
def stringCps (s : String) : List Nat := s.data.map Char.toNat

/-- `new TextEncoder().encode(serialized)` from `stateSerialize`. -/
def textEncodeStr (s : String) : List Nat := utf8EncodeList (stringCps s)

/-- `btoa(binary)` where `binary` holds one byte per character. -/
def btoaBytes (bs : List Nat) : String := String.mk (b64EncodeBytes bs)

/-- `atob(encoded)` back to bytes. -/
def atobStr (s : String) : Option (List Nat) := b64DecodeChars s.data

/-- `new TextDecoder().decode(bytes)` from the emitted decode-and-parse
snippet. -/
def textDecodeBytes (bs : List Nat) : Option String :=
  (utf8DecodeList bs).map (fun cs => String.mk (cs.map Char.ofNat))

/-- The server-side compression of one serialized entry in
`stateSerialize`: UTF-8 bytes, then base64. -/
def compressEntry (serialized : String) : String :=
  btoaBytes (textEncodeStr serialized)

/-- The client-side inverse performed by the emitted snippet:
`atob`, byte array, `TextDecoder.decode`. -/
def decompressEntry (encoded : String) : Option String :=
  (atobStr encoded).bind textDecodeBytes

theorem stringCps_lt (s : String) : ∀ c ∈ stringCps s, c < 0x110000 := by
  intro c hc
  simp only [stringCps, List.mem_map] at hc
  obtain ⟨ch, _, rfl⟩ := hc
  exact char_toNat_lt ch

theorem decompressEntry_compressEntry (s : String) :
    decompressEntry (compressEntry s) = some s := by
  have hvalid := stringCps_lt s
  have hbytes := utf8EncodeList_bytes_lt _ hvalid
  have hmap : ∀ l : List Char, (l.map Char.toNat).map Char.ofNat = l := by
    intro l
    induction l with
    | nil => simp
    | cons c t ih => simp [ih, Char.ofNat_toNat]
  unfold decompressEntry compressEntry btoaBytes atobStr textEncodeStr
    textDecodeBytes
  rw [show (String.mk (b64EncodeBytes (utf8EncodeList (stringCps s)))).data =
    b64EncodeBytes (utf8EncodeList (stringCps s)) from rfl]
  rw [b64_roundtrip _ hbytes]
  simp only [Option.some_bind, utf8_roundtrip _ hvalid, Option.map_some']
  rw [stringCps, hmap, stringMk_data]

/-- C2 (amended): the sentinel round-trip `decode(encode(v)) = v` holds for
every value in which no object property has the value `undefined` and no
object uses a sentinel marker key as an application key (in particular for
top-level `undefined`, for `null` at any depth, and for array elements);
and the base64 compression leg is lossless: decompressing the compressed
encoded string yields the encoded string exactly.  (As the counterexample
shows, an object property whose value is `undefined` is deleted by the
decoding side, so the claim as stated fails for such values.) -/
theorem c2_roundtrip_amended :
    (∀ v : JSVal, goodVal v = true → jsonDecode (jsonEncode v) = v) ∧
    (∀ s : String, decompressEntry (compressEntry s) = some s) :=
  ⟨roundtrip_val, decompressEntry_compressEntry⟩

/-- Witness for C2 (amended) at `{id: 2, settings: {theme: null}}`. -/
theorem c2_roundtrip_amended_witness :
    goodVal (JSVal.vobj [("id", JSVal.vnum 2),
      ("settings", JSVal.vobj [("theme", JSVal.vnull)])]) = true ∧
    jsonDecode (jsonEncode (JSVal.vobj [("id", JSVal.vnum 2),
      ("settings", JSVal.vobj [("theme", JSVal.vnull)])])) =
      JSVal.vobj [("id", JSVal.vnum 2),
        ("settings", JSVal.vobj [("theme", JSVal.vnull)])] := by
  have hg : goodVal (JSVal.vobj [("id", JSVal.vnum 2),
      ("settings", JSVal.vobj [("theme", JSVal.vnull)])]) = true := by
    simp [goodVal, goodObj, isUndef, UNDEFINED_MARKER, NULL_MARKER]
  exact ⟨hg, c2_roundtrip_amended.1 _ hg⟩

/-- `RequestStores` from `State.svelte.ts`: a map from request symbols
(modelled as naturals, allocated freshly per `edgesHandle` run) to that
request's state map. -/
abbrev RequestStoresT := List (Nat × List (String × JSVal))

/-- `getRequestContext` (`State.svelte.ts` lines 219-228) projected to the
store: the state map registered for `sym`, an empty map if none was created
yet. -/
def getRequestStore (rs : RequestStoresT) (sym : Nat) : List (String × JSVal) :=
  (mapGet rs sym).getD []

/-- `Symbol('request')` in `edgesHandle`: every run allocates a fresh,
never-reused symbol, modelled by an allocation counter returning the fresh
symbol and the next counter. -/
def allocRequestSymbol (next : Nat) : Nat × Nat := (next, next + 1)

/-- A state write through a request's cell (`createState.set`,
`createRawState` setter, first-access insertion): `map.set(key, val)` on
that request's own store. -/
def writeState (rs : RequestStoresT) (sym : Nat) (key : String) (v : JSVal) :
    RequestStoresT :=
  mapSet rs sym (mapSet (getRequestStore rs sym) key v)

/-- A state read through a request's cell: `map.get(key)` on that
request's own store. -/
def readState (rs : RequestStoresT) (sym : Nat) (key : String) : Option JSVal :=
  mapGet (getRequestStore rs sym) key

/-- An arbitrary interleaving of state writes from concurrently handled
requests.  AsyncLocalStorage propagates each request's context (hence its
symbol) to every continuation spawned while handling it, so every write is
tagged with the symbol of the request that issued it. -/
def applyTrace : List (Nat × String × JSVal) → RequestStoresT → RequestStoresT
  | [], rs => rs
  | (sym, key, v) :: rest, rs => applyTrace rest (writeState rs sym key v)

/-- Replay of the writes of a single request onto its own state map. -/
def applyWrites : List (String × JSVal) → List (String × JSVal) →
    List (String × JSVal)
  | [], m => m
  | (k, v) :: rest, m => applyWrites rest (mapSet m k v)

theorem getRequestStore_writeState_other (rs : RequestStoresT)
    (a b : Nat) (h : a ≠ b) (k : String) (v : JSVal) :
    getRequestStore (writeState rs a k v) b = getRequestStore rs b := by
  unfold getRequestStore writeState
  rw [mapGet_mapSet_other _ _ _ _ h]

theorem getRequestStore_writeState_same (rs : RequestStoresT)
    (a : Nat) (k : String) (v : JSVal) :
    getRequestStore (writeState rs a k v) a =
      mapSet (getRequestStore rs a) k v := by
  unfold getRequestStore writeState
  rw [mapGet_mapSet_same]
  rfl

theorem getRequestStore_applyTrace (t : List (Nat × String × JSVal))
    (rs : RequestStoresT) (b : Nat) :
    getRequestStore (applyTrace t rs) b =
      applyWrites ((t.filter (fun op => op.1 = b)).map (fun op => op.2))
        (getRequestStore rs b) := by
  induction t generalizing rs with
  | nil => rfl
  | cons op rest ih =>
      obtain ⟨s, k, v⟩ := op
      by_cases hs : s = b
      · subst hs
        simp only [applyTrace, List.filter_cons, decide_eq_true_eq, if_pos rfl,
          List.map_cons, applyWrites, ih, getRequestStore_writeState_same]
      · have hd : (decide (s = b)) = false := by simp [hs]
        simp only [applyTrace, List.filter_cons, hd, Bool.false_eq_true,
          if_false, ih, getRequestStore_writeState_other rs s b hs]

/-- C1: per-request state isolation.  (1) `edgesHandle` allocates a fresh
symbol per run: the allocator strictly advances and distinct runs get
distinct symbols.  (2) For two different request symbols, a write through
one request's state cells is never observable from a read (of any key)
through the other request's context, and the two contexts' state maps are
disjoint objects: writing through one leaves the other's map unchanged.
(3) Over an arbitrary interleaving of writes from concurrently handled
requests, the state map a request reads is exactly the replay of that
request's own writes — writes tagged with any other symbol are invisible. -/
theorem c1_request_isolation :
    (∀ n : Nat, n < (allocRequestSymbol n).2) ∧
    (∀ n m : Nat, n ≠ m →
      (allocRequestSymbol n).1 ≠ (allocRequestSymbol m).1) ∧
    (∀ (rs : RequestStoresT) (a b : Nat), a ≠ b →
      (∀ (k k' : String) (v : JSVal),
        readState (writeState rs a k v) b k' = readState rs b k') ∧
      (∀ (k : String) (v : JSVal),
        getRequestStore (writeState rs a k v) b = getRequestStore rs b)) ∧
    (∀ (t : List (Nat × String × JSVal)) (rs : RequestStoresT)
        (b : Nat) (k : String),
      readState (applyTrace t rs) b k =
        mapGet (applyWrites
          ((t.filter (fun op => op.1 = b)).map (fun op => op.2))
          (getRequestStore rs b)) k) := by
  refine ⟨fun n => by simp [allocRequestSymbol], fun n m h => h, ?_, ?_⟩
  · intro rs a b hab
    refine ⟨fun k k' v => ?_, fun k v => getRequestStore_writeState_other rs a b hab k v⟩
    unfold readState
    rw [getRequestStore_writeState_other rs a b hab k v]
  · intro t rs b k
    unfold readState
    rw [getRequestStore_applyTrace]

/-- Witness for C1: concrete two-request run.  Request A (symbol 0, the
first allocation) writes 5 under key "k"; request B (symbol 1, the second
allocation) still reads nothing under "k", while A reads its own write. -/
theorem c1_request_isolation_witness :
    (0 : Nat) ≠ 1 ∧
    readState (writeState [] 0 "k" (JSVal.vnum 5)) 1 "k" = none ∧
    readState (writeState [] 0 "k" (JSVal.vnum 5)) 0 "k" =
      some (JSVal.vnum 5) := by
  have h := (c1_request_isolation.2.2.1 ([] : RequestStoresT) 0 1
    (by decide)).1 "k" "k" (JSVal.vnum 5)
  refine ⟨by decide, ?_, rfl⟩
  rw [h]
  rfl

/-- `ContextData` from `Context.ts` (the server fields used here): the
request symbol (absent in the degenerate browser context) and the
per-request `providers` cache. -/
structure ContextData where
  symbol : Option Nat
  providers : List (String × JSVal)

/-- Errors thrown by the core; `contextUnavailable` carries the thrown
message (spec name: `ContextUnavailable`). -/
inductive EdgesError where
  | contextUnavailable : String → EdgesError

/-- Message thrown by `RequestContextManager.current` when no resolver was
installed (`Context.ts`). -/
def notInitializedMsg : String :=
  "[edges] RequestContext not initialized. Did you forget to add edgesPlugin()?"

/-- Message thrown by the getter `edgesHandle` installs, when
`storage.getStore()` is `undefined` (a call outside any request scope). -/
def outsideScopeMsg : String :=
  "[Edge-S] State access attempted outside of a valid request context.\n" ++
  "\nThis usually happens if you are calling a provider or using `createState`/`createDerivedState` at the module (top) level.\n" ++
  "\n✅ Correct usage:\n" ++
  "  - Inside a `load` function (page.server.ts / page.ts)\n" ++
  "  - Inside Svelte components (in <script>)\n" ++
  "  - Inside `handle` hook or other request-scoped logic\n" ++
  "\n🚫 Incorrect usage:\n" ++
  "  - Calling providers or states directly at the top level of a module (e.g., outside any function or component)\n" ++
  "\nTo fix this, wrap your provider or state call inside a function, component, or request handler.\n"

/-- Server-side `RequestContext.current()`: before `edgesHandle` installed
the resolver it throws the not-initialized error; with the resolver
installed but no ambient AsyncLocalStorage store it throws the
outside-scope error; inside a request scope it returns the context. -/
def requestContextCurrent (installed : Bool) (alsStore : Option ContextData) :
    Except EdgesError ContextData :=
  if installed then
    match alsStore with
    | none => .error (.contextUnavailable outsideScopeMsg)
    | some ctx => .ok ctx
  else .error (.contextUnavailable notInitializedMsg)

/-- A server cell as returned by `createRawState`/`createState`: either
bound to the request store under its key, or the no-context fallback cell
holding the initializer's value (reached only when `current()` succeeded
with a symbol-less context). -/
inductive ServerCell where
  | scoped : Nat → String → ServerCell
  | fallbackHolding : JSVal → ServerCell

/-- Server path of `createRawState` (`State.svelte.ts` lines 280-303):
`getRequestContext()` rethrows `current()`'s error; a symbol-less context
yields the noop fallback cell; otherwise the cell is bound to the
request's store. -/
def createRawStateServer (installed : Bool) (alsStore : Option ContextData)
    (key : String) (initial : Unit → JSVal) : Except EdgesError ServerCell :=
  match requestContextCurrent installed alsStore with
  | .error e => .error e
  | .ok ctx =>
      match ctx.symbol with
      | some sym => .ok (.scoped sym key)
      | none => .ok (.fallbackHolding (initial ()))

/-- Server path of `createState` (`State.svelte.ts` lines 342-372): like
`createRawState` but the first-access insertion happens at creation:
`if (!map.has(key)) map.set(key, initial())`.  Returns the cell and the
updated stores. -/
def createStateServer (installed : Bool) (alsStore : Option ContextData)
    (rs : RequestStoresT) (key : String) (initial : Unit → JSVal) :
    Except EdgesError (ServerCell × RequestStoresT) :=
  match requestContextCurrent installed alsStore with
  | .error e => .error e
  | .ok ctx =>
      match ctx.symbol with
      | some sym =>
          let m := getRequestStore rs sym
          let m' := if mapHas m key then m else mapSet m key (initial ())
          .ok (.scoped sym key, mapSet rs sym m')
      | none => .ok (.fallbackHolding (initial ()), rs)

/-- Core of the function returned by `createUiProvider` (`Provider.ts`
lines 142-176) once the cache map is resolved: return the cached instance
unless it is `undefined`; otherwise run the factory, cache and return its
result.  Also reports the updated cache and whether the factory ran.  The
same body serves the server (request `providers` map) and the client
(global cache), so the cache is a parameter. -/
def invokeUiProvider (cache : List (String × JSVal)) (cacheKey : String)
    (factory : Unit → Except EdgesError JSVal) :
    Except EdgesError (JSVal × List (String × JSVal) × Bool) :=
  match mapGet cache cacheKey with
  | some cached =>
      if isUndef cached then
        match factory () with
        | .error e => .error e
        | .ok inst => .ok (inst, mapSet cache cacheKey inst, true)
      else .ok (cached, cache, false)
  | none =>
      match factory () with
      | .error e => .error e
      | .ok inst => .ok (inst, mapSet cache cacheKey inst, true)

/-- Server-side invocation of a provider/store function outside or inside
a request scope: `createUiProvider` resolves the cache inside a
`try`/`catch` — the context's `providers` map when `current()` succeeds, a
fresh throwaway `Map` when it throws — and then runs the factory.  Any
error the factory itself throws (e.g. a state constructor) propagates. -/
def callProviderServer (installed : Bool) (alsStore : Option ContextData)
    (cacheKey : String) (factory : Unit → Except EdgesError JSVal) :
    Except EdgesError JSVal :=
  let cache :=
    match requestContextCurrent installed alsStore with
    | .ok ctx => ctx.providers
    | .error _ => []
  match invokeUiProvider cache cacheKey factory with
  | .error e => .error e
  | .ok (inst, _, _) => .ok inst

/-- C3 (counterexample): invoking a provider-returned function on the
server with no request context does NOT fail: `createUiProvider` catches
the `current()` error, substitutes a throwaway cache, and a factory that
touches no state returns a fresh instance silently — here `42` is returned
instead of the ContextUnavailable failure the claim requires. -/
theorem c3_failfast_counterexample :
    callProviderServer true none "some-provider"
      (fun _ => .ok (JSVal.vnum 42)) = .ok (JSVal.vnum 42) := rfl

/-- C3 (amended): outside a request scope on the server, `createState` and
`createRawState` always fail with the ContextUnavailable error (the
not-initialized message before `edgesHandle` ever ran, the outside-scope
message after), and a provider-returned function propagates that failure
whenever its factory invokes a state constructor; but a factory that
touches no state returns its instance without error (uncached, from a
throwaway cache), because `createUiProvider` catches the context error. -/
theorem c3_failfast_amended :
    (∀ (installed : Bool) (key : String) (initial : Unit → JSVal),
      createRawStateServer installed none key initial =
        .error (.contextUnavailable
          (if installed then outsideScopeMsg else notInitializedMsg))) ∧
    (∀ (installed : Bool) (rs : RequestStoresT) (key : String)
        (initial : Unit → JSVal),
      createStateServer installed none rs key initial =
        .error (.contextUnavailable
          (if installed then outsideScopeMsg else notInitializedMsg))) ∧
    (∀ (installed : Bool) (key : String) (inst : JSVal),
      callProviderServer installed none key
        (fun _ =>
          match createRawStateServer installed none (key ++ "::rawstate::0")
            (fun _ => JSVal.vnull) with
          | .error e => .error e
          | .ok _ => .ok inst) =
        .error (.contextUnavailable
          (if installed then outsideScopeMsg else notInitializedMsg))) ∧
    (∀ (installed : Bool) (key : String) (inst : JSVal),
      callProviderServer installed none key (fun _ => .ok inst) =
        .ok inst) := by
  refine ⟨?_, ?_, ?_, ?_⟩
  · intro installed key initial
    cases installed <;>
      simp [createRawStateServer, requestContextCurrent]
  · intro installed rs key initial
    cases installed <;>
      simp [createStateServer, requestContextCurrent]
  · intro installed key inst
    cases installed <;>
      simp [callProviderServer, invokeUiProvider, createRawStateServer,
        requestContextCurrent, mapGet]
  · intro installed key inst
    cases installed <;>
      simp [callProviderServer, invokeUiProvider, requestContextCurrent,
        mapGet]

/-- The function returned by `createUiProvider` executed within a resolved
cache (request `providers` map on the server, `globalClientCache` in the
browser), for a plain factory: returns the cached instance unless it is
`undefined`; otherwise runs the factory, caches and returns its result.
The `Bool` component records whether the factory ran. -/
def providerCall (cache : List (String × JSVal)) (cacheKey : String)
    (factory : Unit → JSVal) : JSVal × List (String × JSVal) × Bool :=
  match mapGet cache cacheKey with
  | some cached =>
      if isUndef cached then
        (factory (), mapSet cache cacheKey (factory ()), true)
      else (cached, cache, false)
  | none => (factory (), mapSet cache cacheKey (factory ()), true)

/-- A sequence of provider calls within one context, threading the cache. -/
def runProviderCalls : List (String × (Unit → JSVal)) →
    List (String × JSVal) → List (String × JSVal)
  | [], cache => cache
  | (key, f) :: rest, cache =>
      runProviderCalls rest (providerCall cache key f).2.1

/-- C5: provider memoization invariant.  (1) After a call under a name
whose factory returns a defined instance, an immediate second call under
the same name returns the identical instance, leaves the cache unchanged
and does not re-run the factory.  (2) A call under one name never touches
another name's cache entry, and (3) its result is independent of the other
name's entry.  (4) Once a name caches a defined instance, any further call
sequence preserves that exact entry — at most one instance per
(context, name). -/
theorem c5_provider_memoization :
    (∀ (cache : List (String × JSVal)) (k : String) (f : Unit → JSVal),
      isUndef (f ()) = false →
      providerCall ((providerCall cache k f).2.1) k f =
        ((providerCall cache k f).1, (providerCall cache k f).2.1, false)) ∧
    (∀ (cache : List (String × JSVal)) (k1 k2 : String) (f2 : Unit → JSVal),
      k1 ≠ k2 →
      mapGet ((providerCall cache k2 f2).2.1) k1 = mapGet cache k1) ∧
    (∀ (cache : List (String × JSVal)) (k1 k2 : String) (f2 : Unit → JSVal)
        (w : JSVal), k1 ≠ k2 →
      (providerCall (mapSet cache k1 w) k2 f2).1 =
        (providerCall cache k2 f2).1) ∧
    (∀ (calls : List (String × (Unit → JSVal)))
        (cache : List (String × JSVal)) (k : String) (v : JSVal),
      isUndef v = false → mapGet cache k = some v →
      mapGet (runProviderCalls calls cache) k = some v) := by
  have hsame : ∀ (cache : List (String × JSVal)) (k : String)
      (f : Unit → JSVal), isUndef (f ()) = false →
      providerCall ((providerCall cache k f).2.1) k f =
        ((providerCall cache k f).1, (providerCall cache k f).2.1, false) := by
    intro cache k f hf
    unfold providerCall
    cases hg : mapGet cache k with
    | none => simp [hg, mapGet_mapSet_same, hf]
    | some cached =>
        cases hu : isUndef cached with
        | true => simp [hg, hu, mapGet_mapSet_same, hf]
        | false => simp [hg, hu]
  have hother : ∀ (cache : List (String × JSVal)) (k1 k2 : String)
      (f2 : Unit → JSVal), k1 ≠ k2 →
      mapGet ((providerCall cache k2 f2).2.1) k1 = mapGet cache k1 := by
    intro cache k1 k2 f2 hne
    unfold providerCall
    cases hg : mapGet cache k2 with
    | none => simp [mapGet_mapSet_other _ _ _ _ (Ne.symm hne)]
    | some cached =>
        cases hu : isUndef cached with
        | true => simp [hu, mapGet_mapSet_other _ _ _ _ (Ne.symm hne)]
        | false => simp [hu]
  refine ⟨hsame, hother, ?_, ?_⟩
  · intro cache k1 k2 f2 w hne
    unfold providerCall
    rw [mapGet_mapSet_other _ _ _ _ hne]
    cases mapGet cache k2 with
    | none => rfl
    | some cached => cases hu : isUndef cached <;> simp [hu]
  · intro calls
    induction calls with
    | nil => intro cache k v _ hg; simpa [runProviderCalls] using hg
    | cons hd rest ih =>
        intro cache k v hv hg
        obtain ⟨key, f⟩ := hd
        by_cases hk : key = k
        · subst hk
          have : (providerCall cache key f).2.1 = cache := by
            unfold providerCall
            simp [hg, hv]
          simpa [runProviderCalls, this] using ih cache key v hv hg
        · have : mapGet (providerCall cache key f).2.1 k = some v := by
            rw [hother cache k key f (fun h => hk h.symm)]
            exact hg
          simpa [runProviderCalls] using ih _ k v hv this

/-- Witness for C5: with an empty cache and the factory returning `7`
under name "userStore", the first call caches `7` and the second call
returns the identical instance without re-running the factory. -/
theorem c5_provider_memoization_witness :
    isUndef (JSVal.vnum 7) = false ∧
    providerCall [] "userStore" (fun _ => JSVal.vnum 7) =
      (JSVal.vnum 7, [("userStore", JSVal.vnum 7)], true) ∧
    providerCall [("userStore", JSVal.vnum 7)] "userStore"
      (fun _ => JSVal.vnum 7) =
      (JSVal.vnum 7, [("userStore", JSVal.vnum 7)], false) := by
  have h := c5_provider_memoization.1 [] "userStore"
    (fun _ => JSVal.vnum 7) rfl
  exact ⟨rfl, rfl, by simpa using h⟩

/-- State of the imperative subscribe body of `createDerivedState`
(`State.svelte.ts` lines 383-409): the positional `values` array (the
`new Array(n)` holes read as `undefined`), `initializedCount`, the
`isInitialized` guard, and the recorded invocations of
`run(deriveFn(values))`, each represented by its argument snapshot. -/
structure DerivedRun where
  values : List JSVal
  initializedCount : Nat
  isInitialized : Bool
  invocations : List (List JSVal)

/-- `checkAndRun` from `createDerivedState`: fire once, the instant all
positions have received a value, then latch `isInitialized`. -/
def checkAndRun (n : Nat) (st : DerivedRun) : DerivedRun :=
  if st.initializedCount ≥ n ∧ st.isInitialized = false then
    { st with isInitialized := true,
              invocations := st.invocations ++ [st.values] }
  else st

/-- The subscriber callback `createDerivedState` passes to
`store.subscribe` for source `i`: store the value positionally, bump the
counter while below the source count, then `checkAndRun`. -/
def sourceCallback (n : Nat) (i : Nat) (value : JSVal) (st : DerivedRun) :
    DerivedRun :=
  let st1 := { st with values := st.values.set i value }
  let st2 :=
    if st1.initializedCount < n then
      { st1 with initializedCount := st1.initializedCount + 1 }
    else st1
  checkAndRun n st2

/-- `stores.map((store, i) => store.subscribe(...))` on the server, under
the claim's hypothesis that every source's `subscribe` invokes the
subscriber synchronously exactly once with the source's current value (as
server subscribable and raw cells do): the callbacks run in source order,
one per source. -/
def subscribeDerivedFrom (n : Nat) (i : Nat) :
    List JSVal → DerivedRun → DerivedRun
  | [], st => st
  | v :: rest, st => subscribeDerivedFrom n (i + 1) rest (sourceCallback n i v st)

/-- Subscribing to `createDerivedState(sources, deriveFn)` on the server:
`sources` lists the current values of the source cells at subscription
time. -/
def subscribeDerived (sources : List JSVal) : DerivedRun :=
  subscribeDerivedFrom sources.length 0 sources
    { values := List.replicate sources.length JSVal.vundef,
      initializedCount := 0, isInitialized := false, invocations := [] }

theorem set_append_cons (pre post : List JSVal) (v w : JSVal) :
    (pre ++ w :: post).set pre.length v = pre ++ v :: post := by
  induction pre with
  | nil => rfl
  | cons a t ih => simp [List.set, ih]

theorem subscribeDerivedFrom_spec :
    ∀ (rest pre : List JSVal), rest ≠ [] →
    subscribeDerivedFrom (pre.length + rest.length) pre.length rest
      { values := pre ++ List.replicate rest.length JSVal.vundef,
        initializedCount := pre.length, isInitialized := false,
        invocations := [] } =
      { values := pre ++ rest,
        initializedCount := pre.length + rest.length,
        isInitialized := true,
        invocations := [pre ++ rest] } := by
  intro rest
  induction rest with
  | nil => intro pre h; exact absurd rfl h
  | cons v rest' ih =>
      intro pre _
      cases rest' with
      | nil =>
          simp only [subscribeDerivedFrom, sourceCallback, checkAndRun,
            List.replicate, List.length_cons, List.length_nil]
          rw [set_append_cons pre [] v JSVal.vundef]
          simp
      | cons w rest'' =>
          have hne' : (w :: rest'') ≠ ([] : List JSVal) := by simp
          have ihv := ih (pre ++ [v]) hne'
          rw [subscribeDerivedFrom]
          have hstep : sourceCallback (pre.length + (v :: w :: rest'').length)
              pre.length v
              { values := pre ++ List.replicate (v :: w :: rest'').length JSVal.vundef,
                initializedCount := pre.length, isInitialized := false,
                invocations := [] } =
              { values := (pre ++ [v]) ++
                  List.replicate (w :: rest'').length JSVal.vundef,
                initializedCount := (pre ++ [v]).length, isInitialized := false,
                invocations := [] } := by
            have hrep : List.replicate (v :: w :: rest'').length JSVal.vundef =
                JSVal.vundef :: List.replicate (w :: rest'').length JSVal.vundef := by
              simp [List.replicate_succ]
            unfold sourceCallback checkAndRun
            dsimp only
            split_ifs with h1 h2
            · exfalso
              obtain ⟨h2a, _⟩ := h2
              simp only [List.length_cons] at h2a
              omega
            · rw [hrep, set_append_cons pre _ v JSVal.vundef]
              simp
            · exfalso
              simp only [List.length_cons] at h1
              omega
            · exfalso
              simp only [List.length_cons] at h1
              omega
          rw [hstep]
          have hlen : pre.length + (v :: w :: rest'').length =
              (pre ++ [v]).length + (w :: rest'').length := by
            simp
            omega
          have hcount : pre.length + 1 = (pre ++ [v]).length := by simp
          rw [hlen, hcount, ihv]
          simp

/-- C4 (counterexample): with the empty source list — which vacuously
satisfies the claim's hypothesis on the sources — no callback ever runs,
`checkAndRun` is never reached, and the combining function is invoked zero
times, not exactly once. -/
theorem c4_derived_empty_counterexample :
    (subscribeDerived []).invocations = [] ∧
    (subscribeDerived []).invocations.length ≠ 1 := by
  constructor
  · rfl
  · simp [subscribeDerived, subscribeDerivedFrom]

/-- C4 (amended): for every NON-EMPTY list of source cells whose
`subscribe` calls the subscriber synchronously exactly once with the
current value, subscribing to `createDerivedState` invokes the combining
function exactly once, with the values the sources held at subscription
time; and once the `isInitialized` latch is set, no further source
emission can ever add an invocation — in particular a later `set`/`update`
on a server source performs only a state-map write and notifies no
subscriber at all. -/
theorem c4_derived_once_amended :
    (∀ sources : List JSVal, sources ≠ [] →
      subscribeDerived sources =
        { values := sources, initializedCount := sources.length,
          isInitialized := true, invocations := [sources] }) ∧
    (∀ (st : DerivedRun) (n i : Nat) (v : JSVal), st.isInitialized = true →
      (sourceCallback n i v st).invocations = st.invocations ∧
      (sourceCallback n i v st).isInitialized = true) := by
  constructor
  · intro sources h
    have := subscribeDerivedFrom_spec sources [] h
    simpa [subscribeDerived] using this
  · intro st n i v h
    unfold sourceCallback checkAndRun
    dsimp only
    split_ifs with h1 h2 h3
    · simp at h2
      exact absurd h (by simp [h2.2])
    · simp [h]
    · simp at h3
      exact absurd h (by simp [h3.2])
    · simp [h]

/-- Witness for C4 (amended) at sources `[1, 2]`: the combining function
is invoked exactly once with `[1, 2]`, and a further emission on the
latched state adds no invocation. -/
theorem c4_derived_once_amended_witness :
    ([JSVal.vnum 1, JSVal.vnum 2] : List JSVal) ≠ [] ∧
    subscribeDerived [JSVal.vnum 1, JSVal.vnum 2] =
      { values := [JSVal.vnum 1, JSVal.vnum 2], initializedCount := 2,
        isInitialized := true,
        invocations := [[JSVal.vnum 1, JSVal.vnum 2]] } := by
  refine ⟨by simp, ?_⟩
  have := c4_derived_once_amended.1 [JSVal.vnum 1, JSVal.vnum 2] (by simp)
  simpa using this

/-- A one-level JS heap, to make object identity observable: an address
indexes an object (a string-keyed record).  This is what distinguishes
storing a reference from storing a `structuredClone` copy. -/
abbrev Heap := List (List (String × JSVal))

/-- Dereference an address. -/
def heapGet (h : Heap) (r : Nat) : List (String × JSVal) := h.getD r []

/-- In-place mutation of the object at an address. -/
def heapSet (h : Heap) (r : Nat) (o : List (String × JSVal)) : Heap := h.set r o

/-- `structuredClone` of the object at `r`: a copy at a fresh address. -/
def heapClone (h : Heap) (r : Nat) : Heap × Nat := (h ++ [heapGet h r], h.length)

/-- First access of a state key in the main variant's server paths
(`createRawState` getter, `State.svelte.ts` lines 294-298, and
`createState` creation, lines 355-357):
`if (!map.has(key)) map.set(key, initial())` — the initializer's result (an
object reference) is stored as-is, and a subsequent access returns the
stored value directly.  Returns the obtained reference, the updated map
and the (unchanged) heap. -/
def stateFirstAccess (h : Heap) (m : List (String × Nat)) (key : String)
    (initial : Unit → Nat) : Nat × List (String × Nat) × Heap :=
  match mapGet m key with
  | some r => (r, m, h)
  | none =>
      let r := initial ()
      (r, mapSet m key r, h)

/-- The historical variants' first access with `structuredClone`
(`State.svelte.ts` lines 509-512, and lines 58/77/487):
`map.set(key, structuredClone(initial()))` stores a deep copy at a fresh
address. -/
def stateFirstAccessClone (h : Heap) (m : List (String × Nat)) (key : String)
    (initial : Unit → Nat) : Nat × List (String × Nat) × Heap :=
  match mapGet m key with
  | some r => (r, m, h)
  | none =>
      let hr := heapClone h (initial ())
      (hr.2, mapSet m key hr.2, hr.1)

/-- C6 (counterexample): in the cited main-variant code the first access
stores the initializer's reference itself — no copy, no fresh allocation —
so two requests whose initializer returns the same module-level default
object (address 0) both store address 0, and after one request mutates
that object the other request's read through its stored reference
observes the mutation.  The clone variant, for contrast, would store a
fresh address 1. -/
theorem c6_deepcopy_counterexample :
    stateFirstAccess [[("count", JSVal.vnum 0)]] [] "k" (fun _ => 0) =
      (0, [("k", 0)], [[("count", JSVal.vnum 0)]]) ∧
    heapGet (heapSet [[("count", JSVal.vnum 0)]] 0
        [("count", JSVal.vnum 99)]) 0 = [("count", JSVal.vnum 99)] ∧
    stateFirstAccessClone [[("count", JSVal.vnum 0)]] [] "k" (fun _ => 0) =
      (1, [("k", 1)], [[("count", JSVal.vnum 0)], [("count", JSVal.vnum 0)]]) :=
  ⟨rfl, rfl, rfl⟩

/-- C6 (amended): on the server (main variant), the first access to a
state key stores the initializer's result DIRECTLY into the request's
state map — no deep copy, the heap is left untouched, so a module-level
default object stays shared between requests — and every subsequent
access within that request returns the stored value directly without
copying. -/
theorem c6_first_access_amended :
    (∀ (h : Heap) (m : List (String × Nat)) (key : String)
        (initial : Unit → Nat), mapGet m key = none →
      stateFirstAccess h m key initial =
        (initial (), mapSet m key (initial ()), h)) ∧
    (∀ (h : Heap) (m : List (String × Nat)) (key : String)
        (initial : Unit → Nat) (r : Nat), mapGet m key = some r →
      stateFirstAccess h m key initial = (r, m, h)) := by
  constructor
  · intro h m key initial hg
    unfold stateFirstAccess
    rw [hg]
  · intro h m key initial r hg
    unfold stateFirstAccess
    rw [hg]

/-- Witness for C6 (amended): first access on an empty map stores
reference 7 as-is with the heap untouched; a second access returns it
directly. -/
theorem c6_first_access_amended_witness :
    mapGet ([] : List (String × Nat)) "k" = none ∧
    stateFirstAccess [] [] "k" (fun _ => 7) = (7, [("k", 7)], []) ∧
    mapGet [("k", 7)] "k" = some 7 ∧
    stateFirstAccess [] [("k", 7)] "k" (fun _ => 7) = (7, [("k", 7)], []) :=
  ⟨rfl, c6_first_access_amended.1 [] [] "k" (fun _ => 7) rfl, rfl,
   c6_first_access_amended.2 [] [("k", 7)] "k" (fun _ => 7) 7 rfl⟩

/-- `getBrowserState` (main variant, `State.svelte.ts` lines 238-250): with
no rehydration table the initial value is used; otherwise `state =
table.get(key)` is returned whenever `table.has(key)` — deliberately a
`has` check, so stored `false`, `0`, `""`, `null` and even `undefined`
(a JS `Map` holds `undefined` with `has = true`) are honored — and the
initial value is used only when the key is absent. -/
def getBrowserState (table : Option (List (String × JSVal))) (key : String)
    (initial : JSVal) : JSVal :=
  match table with
  | none => initial
  | some t =>
      match mapGet t key with
      | some v => v
      | none => initial

/-- Initial value of the client-path `createRawState` cell:
`$state(getBrowserState(key, initial()))` — the initializer is evaluated
eagerly as the argument; its value is used only on a miss. -/
def createRawStateClientInit (table : Option (List (String × JSVal)))
    (key : String) (initial : Unit → JSVal) : JSVal :=
  getBrowserState table key (initial ())

/-- Initial value of the client-path `createState` store:
`writable(getBrowserState(key, initial()))`. -/
def createStateClientInit (table : Option (List (String × JSVal)))
    (key : String) (initial : Unit → JSVal) : JSVal :=
  getBrowserState table key (initial ())

/-- C10: on the client, for every key present in the rehydration table,
`createState` and `createRawState` initialize from the stored value —
whatever it is, including `false`, `0`, `""`, `null` and `undefined` —
and the initializer's value is used only when the key is absent from the
table (or when no table exists). -/
theorem c10_rehydration_falsy :
    (∀ (t : List (String × JSVal)) (key : String) (v : JSVal)
        (initial : Unit → JSVal), mapGet t key = some v →
      createRawStateClientInit (some t) key initial = v ∧
      createStateClientInit (some t) key initial = v) ∧
    (∀ (t : List (String × JSVal)) (key : String) (initial : Unit → JSVal),
      mapGet t key = none →
      createRawStateClientInit (some t) key initial = initial () ∧
      createStateClientInit (some t) key initial = initial ()) ∧
    (∀ (key : String) (initial : Unit → JSVal),
      createRawStateClientInit none key initial = initial () ∧
      createStateClientInit none key initial = initial ()) := by
  refine ⟨?_, ?_, ?_⟩
  · intro t key v initial hg
    constructor <;>
      simp [createRawStateClientInit, createStateClientInit,
        getBrowserState, hg]
  · intro t key initial hg
    constructor <;>
      simp [createRawStateClientInit, createStateClientInit,
        getBrowserState, hg]
  · intro key initial
    constructor <;> rfl

/-- Witness for C10: a table storing `undefined` and `false` under two
keys rehydrates exactly those values, and a missing key falls back to the
initializer's value. -/
theorem c10_rehydration_falsy_witness :
    mapGet [("u", JSVal.vundef), ("f", JSVal.vbool false)] "u" =
      some JSVal.vundef ∧
    createRawStateClientInit
      (some [("u", JSVal.vundef), ("f", JSVal.vbool false)]) "u"
      (fun _ => JSVal.vnum 1) = JSVal.vundef ∧
    mapGet [("u", JSVal.vundef), ("f", JSVal.vbool false)] "f" =
      some (JSVal.vbool false) ∧
    createStateClientInit
      (some [("u", JSVal.vundef), ("f", JSVal.vbool false)]) "f"
      (fun _ => JSVal.vnum 1) = JSVal.vbool false ∧
    mapGet [("u", JSVal.vundef), ("f", JSVal.vbool false)] "missing" = none ∧
    createStateClientInit
      (some [("u", JSVal.vundef), ("f", JSVal.vbool false)]) "missing"
      (fun _ => JSVal.vnum 1) = JSVal.vnum 1 := by
  refine ⟨rfl, ?_, rfl, ?_, rfl, ?_⟩
  · exact (c10_rehydration_falsy.1
      [("u", JSVal.vundef), ("f", JSVal.vbool false)] "u" JSVal.vundef
      (fun _ => JSVal.vnum 1) rfl).1
  · exact (c10_rehydration_falsy.1
      [("u", JSVal.vundef), ("f", JSVal.vbool false)] "f" (JSVal.vbool false)
      (fun _ => JSVal.vnum 1) rfl).2
  · exact (c10_rehydration_falsy.2.1
      [("u", JSVal.vundef), ("f", JSVal.vbool false)] "missing"
      (fun _ => JSVal.vnum 1) rfl).2

/-- Lowercase hex digit (JSON.stringify control-character escapes). -/
def hexDigit (n : Nat) : Char := "0123456789abcdef".data.getD n '0'

/-- JSON.stringify's escaping of one string character. -/
def escapeChar (c : Char) : List Char :=
  if c = '"' then ['\\', '"']
  else if c = '\\' then ['\\', '\\']
  else if c = '\x08' then ['\\', 'b']
  else if c = '\t' then ['\\', 't']
  else if c = '\n' then ['\\', 'n']
  else if c = '\x0c' then ['\\', 'f']
  else if c = '\r' then ['\\', 'r']
  else if c.toNat < 0x20 then
    ['\\', 'u', '0', '0', hexDigit (c.toNat / 16), hexDigit (c.toNat % 16)]
  else [c]

/-- JSON.stringify's escaping of a whole string (without the quotes). -/
def escapeString (s : String) : String := String.mk ((s.data.map escapeChar).flatten)

mutual

/-- The JSON text `JSON.stringify` produces for a (sentinel-encoded) value
tree: no whitespace, insertion-ordered object keys, escaped strings.
Numbers are integers in this development, printed as JS prints them.
(`vundef` cannot occur in an encoder output; its branch is the placeholder
text JS would never emit.) -/
def renderJson : JSVal → String
  | .vundef => "undefined"
  | .vnull => "null"
  | .vbool true => "true"
  | .vbool false => "false"
  | .vnum n => toString n
  | .vstr s => "\"" ++ escapeString s ++ "\""
  | .varr xs => "[" ++ renderArr xs ++ "]"
  | .vobj fs => "\x7b" ++ renderObj fs ++ "\x7d"

/-- Comma-joined array elements. -/
def renderArr : List JSVal → String
  | [] => ""
  | [x] => renderJson x
  | x :: rest => renderJson x ++ "," ++ renderArr rest

/-- Comma-joined `"key":value` object fields. -/
def renderObj : List (String × JSVal) → String
  | [] => ""
  | [(k, v)] => "\"" ++ escapeString k ++ "\":" ++ renderJson v
  | (k, v) :: rest =>
      "\"" ++ escapeString k ++ "\":" ++ renderJson v ++ "," ++ renderObj rest

end

/-- `pat` is a prefix of the character list. -/
def startsWithChars : List Char → List Char → Bool
  | [], _ => true
  | _ :: _, [] => false
  | p :: ps, c :: cs => p = c && startsWithChars ps cs

/-- Substring test over character lists. -/
def hasSubChars (pat : List Char) : List Char → Bool
  | [] => startsWithChars pat []
  | c :: cs => startsWithChars pat (c :: cs) || hasSubChars pat cs

/-- JS `String.prototype.includes` (used for the content-type check
`contentType?.includes('application/json')`). -/
def strIncludes (s pat : String) : Bool := hasSubChars pat.data s.data

/-- JSON whitespace skipping for the `JSON.parse` model. -/
def skipWs : List Char → List Char
  | [] => []
  | c :: rest =>
      if c = ' ' ∨ c = '\t' ∨ c = '\n' ∨ c = '\r' then skipWs rest
      else c :: rest

/-- Hex digit value for `\u` escapes. -/
def parseHexDigit (c : Char) : Option Nat :=
  if c.isDigit then some (c.toNat - '0'.toNat)
  else if 'a' ≤ c ∧ c ≤ 'f' then some (c.toNat - 'a'.toNat + 10)
  else if 'A' ≤ c ∧ c ≤ 'F' then some (c.toNat - 'A'.toNat + 10)
  else none

/-- JSON string-body parser (after the opening quote): returns the content
and the remainder after the closing quote. -/
def parseStringChars : List Char → Option (List Char × List Char)
  | [] => none
  | c :: rest =>
      if c = '"' then some ([], rest)
      else if c = '\\' then
        match rest with
        | [] => none
        | e :: rest2 =>
            if e = 'u' then
              match rest2 with
              | h1 :: h2 :: h3 :: h4 :: rest3 =>
                  match parseHexDigit h1, parseHexDigit h2,
                    parseHexDigit h3, parseHexDigit h4 with
                  | some a, some b, some c2, some d =>
                      (parseStringChars rest3).map (fun pr =>
                        (Char.ofNat (a * 4096 + b * 256 + c2 * 16 + d) :: pr.1,
                          pr.2))
                  | _, _, _, _ => none
              | _ => none
            else
              match
                (if e = '"' then some '"'
                 else if e = '\\' then some '\\'
                 else if e = '/' then some '/'
                 else if e = 'b' then some '\x08'
                 else if e = 'f' then some '\x0c'
                 else if e = 'n' then some '\n'
                 else if e = 'r' then some '\r'
                 else if e = 't' then some '\t'
                 else none) with
              | some ch =>
                  (parseStringChars rest2).map (fun pr => (ch :: pr.1, pr.2))
              | none => none
      else (parseStringChars rest).map (fun pr => (c :: pr.1, pr.2))

/-- Digit accumulation for the number parser. -/
def parseDigitsAux : List Char → Nat → Nat × List Char
  | [], acc => (acc, [])
  | c :: rest, acc =>
      if c.isDigit then parseDigitsAux rest (acc * 10 + (c.toNat - '0'.toNat))
      else (acc, c :: rest)

/-- Unsigned integer parser (this development models JSON numbers as
integers — the only numbers the state protocol's examples move). -/
def parseNumFrom : List Char → Option (Int × List Char)
  | [] => none
  | c :: rest =>
      if c.isDigit then
        let pr := parseDigitsAux rest (c.toNat - '0'.toNat)
        some ((pr.1 : Int), pr.2)
      else none

mutual

/-- Model of `JSON.parse` (value level): fuel-indexed recursive descent;
the fuel only bounds nesting depth. -/
def parseVal : Nat → List Char → Option (JSVal × List Char)
  | 0, _ => none
  | fuel + 1, cs =>
      match skipWs cs with
      | [] => none
      | c :: rest =>
          if c = 'n' then
            match rest with
            | 'u' :: 'l' :: 'l' :: r => some (.vnull, r)
            | _ => none
          else if c = 't' then
            match rest with
            | 'r' :: 'u' :: 'e' :: r => some (.vbool true, r)
            | _ => none
          else if c = 'f' then
            match rest with
            | 'a' :: 'l' :: 's' :: 'e' :: r => some (.vbool false, r)
            | _ => none
          else if c = '"' then
            (parseStringChars rest).map (fun pr =>
              (.vstr (String.mk pr.1), pr.2))
          else if c = '[' then parseArrItems fuel rest
          else if c = Char.ofNat 123 then parseObjItems fuel rest
          else if c = '-' then
            (parseNumFrom rest).map (fun pr => (.vnum (-pr.1), pr.2))
          else (parseNumFrom (c :: rest)).map (fun pr => (.vnum pr.1, pr.2))

/-- Array contents after `[`. -/
def parseArrItems : Nat → List Char → Option (JSVal × List Char)
  | 0, _ => none
  | fuel + 1, cs =>
      match skipWs cs with
      | ']' :: r => some (.varr [], r)
      | cs' =>
          match parseVal fuel cs' with
          | none => none
          | some (v, r) =>
              match parseArrRest fuel r with
              | some (items, r2) => some (.varr (v :: items), r2)
              | none => none

/-- Array continuation: `,`-separated elements until `]`. -/
def parseArrRest : Nat → List Char → Option (List JSVal × List Char)
  | 0, _ => none
  | fuel + 1, cs =>
      match skipWs cs with
      | ']' :: r => some ([], r)
      | ',' :: r =>
          match parseVal fuel r with
          | none => none
          | some (v, r2) =>
              match parseArrRest fuel r2 with
              | some (items, r3) => some (v :: items, r3)
              | none => none
      | _ => none

/-- Object contents after the opening brace. -/
def parseObjItems : Nat → List Char → Option (JSVal × List Char)
  | 0, _ => none
  | fuel + 1, cs =>
      match skipWs cs with
      | [] => none
      | c :: rest =>
          if c = Char.ofNat 125 then some (.vobj [], rest)
          else if c = '"' then
            match parseStringChars rest with
            | none => none
            | some (key, r2) =>
                match skipWs r2 with
                | ':' :: r3 =>
                    match parseVal fuel r3 with
                    | none => none
                    | some (v, r4) =>
                        match parseObjRest fuel r4 with
                        | some (fields, r5) =>
                            some (.vobj ((String.mk key, v) :: fields), r5)
                        | none => none
                | _ => none
          else none

/-- Object continuation: `,`-separated `"key":value` fields until the
closing brace. -/
def parseObjRest : Nat → List Char → Option (List (String × JSVal) × List Char)
  | 0, _ => none
  | fuel + 1, cs =>
      match skipWs cs with
      | [] => none
      | c :: rest =>
          if c = Char.ofNat 125 then some ([], rest)
          else if c = ',' then
            match skipWs rest with
            | '"' :: r1 =>
                match parseStringChars r1 with
                | none => none
                | some (key, r2) =>
                    match skipWs r2 with
                    | ':' :: r3 =>
                        match parseVal fuel r3 with
                        | none => none
                        | some (v, r4) =>
                            match parseObjRest fuel r4 with
                            | some (fields, r5) =>
                                some ((String.mk key, v) :: fields, r5)
                            | none => none
                    | _ => none
            | _ => none
          else none

end

/-- `JSON.parse(text)`: parse one value and require only whitespace after
it. -/
def parseJson (s : String) : Option JSVal :=
  match parseVal (s.length + 1) s.data with
  | some (v, rest) => if skipWs rest = [] then some v else none
  | none => none

/-- The reserved JSON side-channel key. -/
def EDGES_STATE_KEY : String := "__edges_state__"

/-- UTF-8 byte length of a string:
`textEncoder.encode(modifiedBody).length`. -/
def utf8ByteLength (s : String) : Nat := (utf8EncodeList (stringCps s)).length

/-- The slice of a `Response` that `edgesHandle`'s JSON augmentation reads
and writes: content-type header, body text, content-length header, status. -/
structure EdgesResponse where
  contentType : Option String
  body : String
  contentLength : Option Nat
  status : Nat

/-- JS object-spread semantics `{...json}` on an arbitrary JSON value:
objects contribute their fields, arrays and strings their indexed
elements, primitives nothing. -/
def spreadFields : JSVal → List (String × JSVal)
  | .vobj fs => fs
  | .varr xs => xs.enum.map (fun p => (toString p.1, p.2))
  | .vstr s => s.data.enum.map (fun p => (toString p.1, JSVal.vstr (String.mk [p.2])))
  | _ => []

/-- The JSON response post-processing of `edgesHandle` (`EdgesHandle.ts`
lines 81-127): when the content-type includes `application/json` and the
request's state map is non-empty, re-parse the body, serialize each state
value with `safeReplacer`, add the side-channel field
(`{...json, __edges_state__: stateObj}`), re-stringify, and set
`content-length` to the UTF-8 byte length of the new body; any parse
failure (the `catch`) returns the original response untouched. -/
def injectEdgesState (resp : EdgesResponse)
    (stateMap : List (String × JSVal)) : EdgesResponse :=
  match resp.contentType with
  | none => resp
  | some ct =>
      if strIncludes ct "application/json" then
        if stateMap.length != 0 then
          match parseJson resp.body with
          | none => resp
          | some json =>
              let stateObj := stateMap.map (fun kv =>
                (kv.1, JSVal.vstr (renderJson (jsonEncode kv.2))))
              let modifiedJson :=
                mapSet (spreadFields json) EDGES_STATE_KEY (.vobj stateObj)
              let modifiedBody := renderJson (.vobj modifiedJson)
              { resp with body := modifiedBody,
                          contentLength := some (utf8ByteLength modifiedBody) }
        else resp
      else resp

/-- C7: when the inner handler's response has a JSON content-type, the
state map is non-empty and the body parses as a JSON object, the returned
response's body is exactly the original object extended with the
top-level `__edges_state__` field mapping each state key to its
sentinel-encoded JSON string, and the content-length header equals the
UTF-8 byte length of that new body; status and content-type are kept. -/
theorem c7_json_augmentation (resp : EdgesResponse) (ct : String)
    (fs : List (String × JSVal)) (stateMap : List (String × JSVal))
    (hct : resp.contentType = some ct)
    (hjson : strIncludes ct "application/json" = true)
    (hne : stateMap ≠ [])
    (hparse : parseJson resp.body = some (.vobj fs)) :
    injectEdgesState resp stateMap =
      { resp with
        body := renderJson (.vobj (mapSet fs EDGES_STATE_KEY
          (.vobj (stateMap.map (fun kv =>
            (kv.1, JSVal.vstr (renderJson (jsonEncode kv.2)))))))),
        contentLength := some (utf8ByteLength (renderJson (.vobj (mapSet fs
          EDGES_STATE_KEY (.vobj (stateMap.map (fun kv =>
            (kv.1, JSVal.vstr (renderJson (jsonEncode kv.2)))))))))) } := by
  have hlen : (stateMap.length != 0) = true := by
    cases stateMap with
    | nil => exact absurd rfl hne
    | cons a t => simp
  unfold injectEdgesState
  rw [hct]
  simp only [hjson, if_true, hlen, hparse]
  rfl

/-- Witness for C7: the spec's scenario — body `{"message":"ok"}` with the
single pending entry mapping `"count::state::0"` to `5` — yields exactly
`{"message":"ok","__edges_state__":{"count::state::0":"5"}}` with
content-length 58 (the new body's byte length). -/
theorem c7_json_augmentation_witness :
    strIncludes "application/json" "application/json" = true ∧
    ([("count::state::0", JSVal.vnum 5)] : List (String × JSVal)) ≠ [] ∧
    parseJson "\x7b\"message\":\"ok\"\x7d" =
      some (.vobj [("message", JSVal.vstr "ok")]) ∧
    injectEdgesState
      { contentType := some "application/json",
        body := "\x7b\"message\":\"ok\"\x7d",
        contentLength := some 16, status := 200 }
      [("count::state::0", JSVal.vnum 5)] =
      { contentType := some "application/json",
        body := "\x7b\"message\":\"ok\",\"__edges_state__\":\x7b\"count::state::0\":\"5\"\x7d\x7d",
        contentLength := some 58, status := 200 } := by
  have h := c7_json_augmentation
    { contentType := some "application/json",
      body := "\x7b\"message\":\"ok\"\x7d",
      contentLength := some 16, status := 200 }
    "application/json" [("message", JSVal.vstr "ok")]
    [("count::state::0", JSVal.vnum 5)] rfl rfl (by simp) rfl
  refine ⟨rfl, by simp, rfl, ?_⟩
  rw [h]
  rfl

/-- C8: if the body of a JSON response fails to parse as JSON while the
state side-channel would have been injected, `edgesHandle` returns the
original response — body, headers and status untouched — and no error
escapes (the `catch` swallows it and logs). -/
theorem c8_serialization_fallback (resp : EdgesResponse) (ct : String)
    (stateMap : List (String × JSVal))
    (hct : resp.contentType = some ct)
    (hparse : parseJson resp.body = none) :
    injectEdgesState resp stateMap = resp := by
  unfold injectEdgesState
  rw [hct]
  by_cases hjson : strIncludes ct "application/json" = true
  · simp only [hjson, if_true, hparse]
    cases h : (stateMap.length != 0) <;> simp
  · simp only [Bool.not_eq_true] at hjson
    simp [hjson]

/-- Witness for C8: a malformed body `"not-json{"` under a JSON
content-type is passed through unchanged. -/
theorem c8_serialization_fallback_witness :
    parseJson "not-json\x7b" = none ∧
    injectEdgesState
      { contentType := some "application/json", body := "not-json\x7b",
        contentLength := some 9, status := 200 }
      [("count::state::0", JSVal.vnum 5)] =
      { contentType := some "application/json", body := "not-json\x7b",
        contentLength := some 9, status := 200 } :=
  ⟨rfl, c8_serialization_fallback
    { contentType := some "application/json", body := "not-json\x7b",
      contentLength := some 9, status := 200 }
    "application/json" [("count::state::0", JSVal.vnum 5)] rfl rfl⟩

/-- One emitted `stateSerialize` entry: a compressed decode-and-parse
block (`atob` + `TextDecoder` + `JSON.parse`) carrying the base64
payload, or an escaped raw `JSON.parse('...')` literal. -/
inductive EmittedEntry where
  | compressedBlock : String → String → EmittedEntry
  | rawLiteral : String → String → EmittedEntry

/-- Whether an entry was emitted as a decode-and-parse block. -/
def isCompressedEntry : EmittedEntry → Bool
  | .compressedBlock _ _ => true
  | .rawLiteral _ _ => false

/-- The single-pass escape of the raw-literal branch:
`serialized.replace(/[\\']/g, ch => '\\' + ch)`. -/
def escapeForScript (s : String) : String :=
  String.mk ((s.data.map (fun c =>
    if c = '\\' ∨ c = Char.ofNat 39 then ['\\', c] else [c])).flatten)

/-- `stateSerialize` options (`{ compress?, threshold? }`). -/
structure SerializeOptions where
  compress : Option Bool
  threshold : Option Nat

/-- `options?.compress ?? false`. -/
def resolveCompress : Option SerializeOptions → Bool
  | none => false
  | some o => o.compress.getD false

/-- `options?.threshold ?? 1024` (the 1KB default). -/
def resolveThreshold : Option SerializeOptions → Nat
  | none => 1024
  | some o => o.threshold.getD 1024

/-- Emission of one state-map entry by `stateSerialize` (`State.svelte.ts`
lines 191-213): `serialized = JSON.stringify(value, safeReplacer)`; if
compression is on and `serialized.length > threshold`, emit the
decode-and-parse block holding the base64 packing of the UTF-8 bytes of
`serialized`; otherwise emit the escaped raw literal. -/
def serializeEntry (shouldCompress : Bool) (threshold : Nat) (key : String)
    (value : JSVal) : EmittedEntry :=
  let serialized := renderJson (jsonEncode value)
  if shouldCompress && decide (utf16Length serialized > threshold) then
    .compressedBlock key (compressEntry serialized)
  else
    .rawLiteral key (escapeForScript serialized)

/-- The entry list `stateSerialize` emits for a request's state map. -/
def stateSerializeEntries (map : List (String × JSVal))
    (options : Option SerializeOptions) : List EmittedEntry :=
  map.map (fun kv =>
    serializeEntry (resolveCompress options) (resolveThreshold options)
      kv.1 kv.2)

/-- A 48-character payload whose JSON text is 50 characters long. -/
def bigPayload : JSVal :=
  JSVal.vstr "aaaaaaaaaaaaaaaaaaaaaaaaaaaaaaaaaaaaaaaaaaaaaaaa"

/-- A 3-character payload whose JSON text is 5 characters long. -/
def smallPayload : JSVal := JSVal.vstr "abc"

/-- C9: with compression enabled, an entry is emitted as a base64
decode-and-parse block exactly when its encoded string's length exceeds
the threshold, and as an escaped raw literal otherwise; the threshold
defaults to 1024 and compression to off when no options are given.
Concretely, with threshold 10 a 50-character entry is emitted compressed
and a 5-character entry as a raw literal. -/
theorem c9_compression_threshold :
    (∀ (t : Nat) (k : String) (v : JSVal),
      isCompressedEntry (serializeEntry true t k v) =
        decide (utf16Length (renderJson (jsonEncode v)) > t)) ∧
    (∀ (t : Nat) (k : String) (v : JSVal),
      serializeEntry false t k v =
        .rawLiteral k (escapeForScript (renderJson (jsonEncode v)))) ∧
    (resolveThreshold none = 1024 ∧ resolveCompress none = false ∧
      resolveThreshold (some { compress := some true, threshold := none }) =
        1024) ∧
    (∀ (map : List (String × JSVal)) (options : Option SerializeOptions),
      stateSerializeEntries map options = map.map (fun kv =>
        serializeEntry (resolveCompress options) (resolveThreshold options)
          kv.1 kv.2)) ∧
    (utf16Length (renderJson (jsonEncode bigPayload)) = 50 ∧
      isCompressedEntry (serializeEntry true 10 "k" bigPayload) = true) ∧
    (utf16Length (renderJson (jsonEncode smallPayload)) = 5 ∧
      isCompressedEntry (serializeEntry true 10 "k" smallPayload) = false) := by
  refine ⟨?_, ?_, ⟨rfl, rfl, rfl⟩, fun map options => rfl, ⟨?_, ?_⟩, ⟨?_, ?_⟩⟩
  · intro t k v
    unfold serializeEntry
    cases hdec : decide (utf16Length (renderJson (jsonEncode v)) > t) <;>
      simp [hdec, isCompressedEntry]
  · intro t k v
    unfold serializeEntry
    simp [isCompressedEntry]
  · rfl
  · rfl
  · rfl
  · rfl
